import Mathlib

/-!
Verification development for the ChromeLogs capture-buffer-flush pipeline.

The definitions below are a shallow embedding of the JavaScript source in
`src/unnamed/part_002` (the main `chrome.js` script).  Pure data
manipulation is translated to Lean functions on `List`/`Nat`; filesystem
writes are modelled by boolean outcome oracles together with an explicit
record of what the write produced; display/TTY side effects are elided,
since no claim depends on them.
-/

namespace ChromeLogs

/-- The suffix of `l` holding its last `n` elements, in order.  This is the
JavaScript idiom `arr.slice(startIndex)` with `startIndex = Math.max(0,
arr.length - n)`, and also `arr.slice(-n)`. -/
def lastN (n : Nat) (l : List α) : List α := l.drop (l.length - n)

theorem lastN_of_le {n : Nat} {l : List α} (h : l.length ≤ n) : lastN n l = l := by
  simp [lastN, Nat.sub_eq_zero_of_le h]

theorem lastN_length (n : Nat) (l : List α) : (lastN n l).length = min n l.length := by
  simp only [lastN, List.length_drop]
  omega

theorem lastN_eq_reverse_take (n : Nat) (l : List α) :
    lastN n l = (l.reverse.take n).reverse := by
  rw [List.take_reverse, List.reverse_reverse, lastN]

theorem take_append_take (n : Nat) (b a : List α) :
    (b ++ a.take n).take n = (b ++ a).take n := by
  rw [List.take_append_eq_append_take, List.take_append_eq_append_take,
    List.take_take, Nat.min_eq_left (Nat.sub_le n b.length)]

/-- Absorption of `lastN` across appends: keeping only the last `n` elements
before appending more does not change the final last-`n` suffix. -/
theorem lastN_append_lastN (n : Nat) (xs ys : List α) :
    lastN n (lastN n xs ++ ys) = lastN n (xs ++ ys) := by
  rw [lastN_eq_reverse_take, List.reverse_append, lastN_eq_reverse_take,
    List.reverse_reverse, take_append_take, ← List.reverse_append,
    ← lastN_eq_reverse_take]

theorem lastN_append_of_lt {l : List α} {n : Nat} (x : α) (h : l.length < n) :
    lastN n (l ++ [x]) = l ++ [x] := by
  apply lastN_of_le
  simp only [List.length_append, List.length_cons, List.length_nil]
  omega

theorem lastN_length_append (l : List α) (x : α) (hn : 0 < l.length) :
    lastN l.length (l ++ [x]) = l.drop 1 ++ [x] := by
  unfold lastN
  rw [List.length_append, List.length_cons, List.length_nil, Nat.zero_add,
    Nat.add_sub_cancel_left]
  exact List.drop_append_of_le_length hn

/-- The `BoundedArray` class of `src/unnamed/part_002` lines 351-380: a
fixed-capacity ordered container (`maxSize`), its backing `array`, and an
`overflowed` flag set once eviction has happened. -/
structure BoundedArray (α : Type) where
  maxSize : Nat
  array : List α
  overflowed : Bool

/-- `BoundedArray.push` (lines 358-366): when already at capacity the oldest
element is removed (`this.array.shift()`, i.e. drop the head) and
`overflowed` is set; the item is then appended and the method returns the
backing array's length after the insertion. -/
def BoundedArray.push (b : BoundedArray α) (item : α) : BoundedArray α × Nat :=
  let b :=
    if b.maxSize ≤ b.array.length then
      { b with array := b.array.drop 1 ++ [item], overflowed := true }
    else
      { b with array := b.array ++ [item] }
  (b, b.array.length)

/-- `clear` (lines 376-379). -/
def BoundedArray.clear (b : BoundedArray α) : BoundedArray α :=
  { b with array := [], overflowed := false }

/-- Push a whole sequence of items in order, collecting the value returned
by each push. -/
def BoundedArray.pushAll (b : BoundedArray α) : List α → BoundedArray α × List Nat
  | [] => (b, [])
  | x :: rest =>
    let p := b.push x
    let q := p.1.pushAll rest
    (q.1, p.2 :: q.2)

theorem BoundedArray.push_maxSize (b : BoundedArray α) (x : α) :
    (b.push x).1.maxSize = b.maxSize := by
  unfold push
  split <;> rfl

/-- One push keeps exactly the last `maxSize` elements of `array ++ [item]`,
provided the buffer respects its capacity and the capacity is positive. -/
theorem BoundedArray.push_array (b : BoundedArray α) (x : α) (hpos : 0 < b.maxSize)
    (hle : b.array.length ≤ b.maxSize) :
    (b.push x).1.array = lastN b.maxSize (b.array ++ [x]) := by
  unfold push
  rcases lt_or_le b.array.length b.maxSize with h | h
  · rw [if_neg (by omega)]
    exact (lastN_append_of_lt x h).symm
  · have heq : b.array.length = b.maxSize := le_antisymm hle h
    rw [if_pos h]
    simp only
    have hlen : 0 < b.array.length := by omega
    rw [← heq, lastN_length_append b.array x hlen]

theorem BoundedArray.push_ret (b : BoundedArray α) (x : α) :
    (b.push x).2 = (b.push x).1.array.length := by
  unfold push
  split <;> rfl

theorem BoundedArray.pushAll_array (items : List α) :
    ∀ (b : BoundedArray α), 0 < b.maxSize → b.array.length ≤ b.maxSize →
      (b.pushAll items).1.array = lastN b.maxSize (b.array ++ items) ∧
      (b.pushAll items).1.maxSize = b.maxSize := by
  induction items with
  | nil =>
    intro b hpos hle
    refine ⟨?_, rfl⟩
    simp only [pushAll, List.append_nil]
    exact (lastN_of_le hle).symm
  | cons x rest ih =>
    intro b hpos hle
    have hmax := b.push_maxSize x
    have harr := b.push_array x hpos hle
    have hlen : (b.push x).1.array.length ≤ (b.push x).1.maxSize := by
      rw [harr, hmax, lastN_length]
      exact Nat.min_le_left _ _
    have hpos2 : 0 < (b.push x).1.maxSize := hmax ▸ hpos
    obtain ⟨ha, hm⟩ := ih (b.push x).1 hpos2 hlen
    refine ⟨?_, by simpa [pushAll, hmax] using hm⟩
    simp only [pushAll]
    rw [ha, harr, hmax, lastN_append_lastN]
    simp

theorem BoundedArray.pushAll_ret (items : List α) :
    ∀ (b : BoundedArray α), 0 < b.maxSize → b.array.length ≤ b.maxSize →
      (b.pushAll items).2 =
        (List.range items.length).map (fun i => min (b.array.length + i + 1) b.maxSize) := by
  induction items with
  | nil => intro b _ _; rfl
  | cons x rest ih =>
    intro b hpos hle
    have hmax := b.push_maxSize x
    have harr := b.push_array x hpos hle
    have hlen1 : (b.push x).1.array.length = min b.maxSize (b.array.length + 1) := by
      rw [harr, lastN_length]
      simp
    have hlen : (b.push x).1.array.length ≤ (b.push x).1.maxSize := by
      rw [hlen1, hmax]
      exact Nat.min_le_left _ _
    have hpos2 : 0 < (b.push x).1.maxSize := hmax ▸ hpos
    have hrec := ih (b.push x).1 hpos2 hlen
    simp only [pushAll, hrec, hmax, hlen1, List.length_cons, List.range_succ_eq_map,
      List.map_cons, List.map_map]
    refine List.cons_eq_cons.mpr ⟨?_, ?_⟩
    · rw [b.push_ret x, hlen1]
      omega
    · have hfun : ((fun i => min (b.array.length + i + 1) b.maxSize) ∘ Nat.succ) =
          fun i => min (min b.maxSize (b.array.length + 1) + i + 1) b.maxSize := by
        funext i
        simp only [Function.comp, Nat.succ_eq_add_one]
        omega
      rw [hfun]

/-- C2 — For every capacity `C > 0` and every sequence of more than `C`
items pushed into a fresh `BoundedArray`, after all the pushes the buffer
length equals `C`, the retained elements are exactly the last `C` items
pushed in their original insertion order, and the value returned by each
push is the buffer's length right after that insertion (which is
`min (i + 1) C` for the `i`-th push, zero-based). -/
theorem boundedArray_retains_last_C {α : Type} (C : Nat) (items : List α)
    (hC : 0 < C) (hN : C < items.length) :
    ((BoundedArray.mk C [] false).pushAll items).1.array = lastN C items ∧
    ((BoundedArray.mk C [] false).pushAll items).1.array.length = C ∧
    ((BoundedArray.mk C [] false).pushAll items).2 =
      (List.range items.length).map (fun i => min (i + 1) C) ∧
    (∀ (b : BoundedArray α) (x : α), (b.push x).2 = (b.push x).1.array.length) := by
  have h0 : (BoundedArray.mk C ([] : List α) false).array.length ≤ C := by simp
  obtain ⟨ha, _⟩ := BoundedArray.pushAll_array items (BoundedArray.mk C [] false) hC h0
  have hr := BoundedArray.pushAll_ret items (BoundedArray.mk C [] false) hC h0
  simp only [List.nil_append] at ha
  refine ⟨ha, ?_, ?_, fun b x => b.push_ret x⟩
  · rw [ha, lastN_length]
    omega
  · rw [hr]
    simp

/-- Witness for `boundedArray_retains_last_C` at capacity 2 and five pushed
items. -/
theorem boundedArray_retains_last_C_witness :
    ((BoundedArray.mk 2 [] false).pushAll [10, 20, 30, 40, 50]).1.array
        = lastN 2 [10, 20, 30, 40, 50] ∧
    ((BoundedArray.mk 2 [] false).pushAll [10, 20, 30, 40, 50]).1.array.length = 2 ∧
    lastN 2 [10, 20, 30, 40, 50] = [40, 50] := by
  have h := boundedArray_retains_last_C 2 ([10, 20, 30, 40, 50] : List Nat)
    (by decide) (by decide)
  exact ⟨h.1, h.2.1, by decide⟩

/-- `MEMORY_CONFIG.maxEventsBeforeFlush` (line 255). -/
def maxEventsBeforeFlush : Nat := 5000

/-- `MEMORY_CONFIG.maxLogsPerTabBeforeFlush` (line 256). -/
def maxLogsPerTabBeforeFlush : Nat := 500

/-- `initTabNetworkEvents` (line 1577) allocates the per-tab buffer as
`new BoundedArray(MEMORY_CONFIG.maxEventsBeforeFlush * 1.2)`; `5000 * 1.2`
is exactly `6000`. -/
def networkBufferCapacity : Nat := 6000

/-- The per-tab network-event container.  `initTabNetworkEvents` (lines
1573-1581) creates it as a `BoundedArray`, but a successful flush replaces
it with a plain JavaScript array (`networkEvents.set(tabId, [])`, line
1460) which has no capacity bound; both shapes answer `.length` and
`.push`, and `saveFinalHarFiles` (lines 1282-1305) explicitly branches on
the two shapes. -/
inductive NetBuffer (α : Type) where
  | boundedBuf (b : BoundedArray α)
  | plainArr (l : List α)

def NetBuffer.length : NetBuffer α → Nat
  | .boundedBuf b => b.array.length
  | .plainArr l => l.length

def NetBuffer.items : NetBuffer α → List α
  | .boundedBuf b => b.array
  | .plainArr l => l

/-- A push from the request handler (line 1851): `BoundedArray.push` on the
bounded shape, the unbounded `Array.prototype.push` (plain append) on the
plain shape. -/
def NetBuffer.push : NetBuffer α → α → NetBuffer α
  | .boundedBuf b, x => .boundedBuf (b.push x).1
  | .plainArr l, x => .plainArr (l ++ [x])

/-- The batch coercion at the top of `createHarFile` (lines 906-912): an
`Array` is used as it is, a `Map` is flattened, and anything else — in
particular a `BoundedArray`, which is neither — falls through to the empty
list.  This is the entries list of the HAR document a network flush
writes, so a flush taken while the buffer is still in its `BoundedArray`
shape persists an empty document. -/
def createHarFileEntries : NetBuffer α → List α
  | .boundedBuf _ => []
  | .plainArr l => l

/-- The claim-relevant per-tab state of the network flush path: the tab's
buffer and its entry in `flushStats.perTabNetworkEventsFlushed` (the
per-tab flush sequence counter, line 1434/1447). -/
structure TabNetFlushState (α : Type) where
  buffer : NetBuffer α
  flushCount : Nat

/-- `flushNetworkEventsForTab` (lines 1395-1478) for a tab present in
`networkEvents` with `sessionDir` set.  Under threshold and not forced, it
returns without doing anything (line 1404).  Otherwise it serializes the
buffered events and writes them via `writeCompressedFile`; the write
outcome is the `writeOk` parameter.  On success the per-tab flush counter
is set to its old value plus one (line 1447) and the buffer is replaced by
a plain empty array (line 1460).  A rejected write raises at the `await`,
the `catch` block (lines 1470-1477) only logs, and neither the buffer nor
the counter changes.  The returned option is the entries list of the flush
file that was written (`none` when no file was written): what
`createHarFile` (line 1441) serializes from the batch, which is the
buffered items once the buffer is a plain array but the empty list while
it is still the `BoundedArray` shape. -/
def flushNetworkEventsForTab (forceSave writeOk : Bool) (s : TabNetFlushState α) :
    TabNetFlushState α × Option (List α) :=
  if s.buffer.length < maxEventsBeforeFlush ∧ forceSave = false then (s, none)
  else if writeOk then
    ({ buffer := .plainArr [], flushCount := s.flushCount + 1 },
     some (createHarFileEntries s.buffer))
  else (s, none)

/-- An externally observable operation on one tab's network state: an
ingested request event, or a flush attempt (threshold, timer or forced)
with a given write outcome. -/
inductive TabNetOp (α : Type) where
  | pushEvent (x : α)
  | flushAttempt (forceSave writeOk : Bool)

def tabNetStep (s : TabNetFlushState α) : TabNetOp α → TabNetFlushState α
  | .pushEvent x => { s with buffer := s.buffer.push x }
  | .flushAttempt f ok => (flushNetworkEventsForTab f ok s).1

def tabNetRun (s : TabNetFlushState α) (ops : List (TabNetOp α)) : TabNetFlushState α :=
  ops.foldl tabNetStep s

/-- `initTabNetworkEvents` (lines 1573-1581): a fresh tab starts with a
`BoundedArray` of capacity 6000 and flush count 0. -/
def initTabNetworkEvents (α : Type) : TabNetFlushState α :=
  { buffer := .boundedBuf (BoundedArray.mk networkBufferCapacity [] false), flushCount := 0 }

theorem tabNetRun_cons (s : TabNetFlushState α) (op : TabNetOp α) (ops : List (TabNetOp α)) :
    tabNetRun s (op :: ops) = tabNetRun (tabNetStep s op) ops := rfl

theorem tabNetRun_pushes_plain (x : α) (n : Nat) :
    ∀ (l : List α) (c : Nat),
      tabNetRun ⟨.plainArr l, c⟩ (List.replicate n (TabNetOp.pushEvent x)) =
        ⟨.plainArr (l ++ List.replicate n x), c⟩ := by
  induction n with
  | zero =>
    intro l c
    simp [tabNetRun]
  | succ n ih =>
    intro l c
    rw [List.replicate_succ, tabNetRun_cons]
    rw [show tabNetStep ⟨.plainArr l, c⟩ (TabNetOp.pushEvent x)
        = (⟨.plainArr (l ++ [x]), c⟩ : TabNetFlushState α) from rfl]
    rw [ih (l ++ [x]) c, List.append_assoc]
    simp [List.replicate_succ]

/-- C1 — refuted on the code.  `flushNetworkEventsForTab` replaces a tab's
`BoundedArray` with a plain unbounded array on every successful flush
(line 1460, `networkEvents.set(tabId, [])`), and `initTabNetworkEvents`
never restores the bounded shape because the map still has the key.  Hence
after one successful (here: forced) flush, 6001 ingested events all stay
buffered, exceeding the fixed capacity 6000 — the eviction bound is lost
for the rest of the session, contradicting the capacity invariant and the
config's own description of `maxEventsBeforeFlush` as the max events kept
in memory per tab. -/
theorem networkBuffer_exceeds_capacity_after_flush :
    (tabNetRun (initTabNetworkEvents Nat)
        (TabNetOp.flushAttempt true true ::
          List.replicate (networkBufferCapacity + 1) (TabNetOp.pushEvent 0))).buffer.length
      = networkBufferCapacity + 1 ∧
    networkBufferCapacity < networkBufferCapacity + 1 := by
  refine ⟨?_, Nat.lt_succ_self _⟩
  rw [tabNetRun_cons]
  rw [show tabNetStep (initTabNetworkEvents Nat) (TabNetOp.flushAttempt true true)
      = (⟨.plainArr [], 1⟩ : TabNetFlushState Nat) from rfl]
  rw [tabNetRun_pushes_plain 0 (networkBufferCapacity + 1) [] 1]
  simp [NetBuffer.length]

/-- C3 — For every flush cycle of a tab's network buffer that actually
attempts a write (under-threshold non-forced calls return early): on write
success the buffer is cleared and the per-tab flush sequence advances by
exactly one, the written file carrying what `createHarFile` serializes
from the batch (the buffered items once the buffer is a plain array; an
empty entries list while it is still the `BoundedArray` shape, so a tab's
first flush persists an empty document); on write failure the buffer is
left intact and the flush sequence does not advance, so the next trigger
sees the same buffered data plus whatever accumulates afterwards. -/
theorem flush_success_clears_failure_keeps (s : TabNetFlushState α)
    (forceSave writeOk : Bool)
    (hattempt : ¬(s.buffer.length < maxEventsBeforeFlush ∧ forceSave = false)) :
    (writeOk = true →
      flushNetworkEventsForTab forceSave writeOk s =
        ({ buffer := .plainArr [], flushCount := s.flushCount + 1 },
         some (createHarFileEntries s.buffer))) ∧
    (writeOk = false →
      flushNetworkEventsForTab forceSave writeOk s = (s, none)) := by
  unfold flushNetworkEventsForTab
  rw [if_neg hattempt]
  cases writeOk <;> simp

/-- Witness for `flush_success_clears_failure_keeps`: a forced flush of a
tab holding one event, in both write outcomes. -/
theorem flush_success_clears_failure_keeps_witness :
    flushNetworkEventsForTab true true (⟨.plainArr [5], 3⟩ : TabNetFlushState Nat) =
      (⟨.plainArr [], 4⟩, some [5]) ∧
    flushNetworkEventsForTab true false (⟨.plainArr [5], 3⟩ : TabNetFlushState Nat) =
      (⟨.plainArr [5], 3⟩, none) := by
  constructor
  · exact (flush_success_clears_failure_keeps
      (⟨.plainArr [5], 3⟩ : TabNetFlushState Nat) true true (by decide)).1 rfl
  · exact (flush_success_clears_failure_keeps
      (⟨.plainArr [5], 3⟩ : TabNetFlushState Nat) true false (by decide)).2 rfl

/-- C5 counterexample — a forced flush of a tab whose network buffer is
empty is not a no-op: `forceSave` bypasses the only size guard (line 1404),
so the code writes a flush document whose payload is empty and advances the
per-tab flush sequence from 0 to 1; the claim asserts no file is created
and no sequence number is consumed. -/
theorem forced_empty_flush_not_noop :
    flushNetworkEventsForTab true true (⟨.plainArr [], 0⟩ : TabNetFlushState Nat) =
      (⟨.plainArr [], 1⟩, some []) ∧
    (some ([] : List Nat)).isSome = true := by
  exact ⟨rfl, rfl⟩

/-- One captured console record.  Only the fields the counting and
flushing logic inspects are modelled; `type` is the string reported by the
browser and drives the per-type breakdown. -/
structure LogRecord where
  type : String
  text : String
deriving DecidableEq

/-- The breakdown object literal with its six fixed keys (lines 1620-1627
in `flushConsoleLogsForTab`, identically lines 1034-1041 in
`saveAllConsoleLogs` and 1165-1172 in `saveConsoleLogs`). -/
structure EntriesByType where
  log : Nat
  info : Nat
  warning : Nat
  error : Nat
  debug : Nat
  other : Nat
deriving DecidableEq

/-- One iteration of the counting loop (lines 1628-1635):
`if (entriesByType.hasOwnProperty(type)) entriesByType[type]++; else
entriesByType.other++;`.  The six own keys are log, info, warning, error,
debug and other; indexing by the key's own name is rendered as the string
dispatch below, whose final branch covers both the literal type "other"
and every unrecognized type, exactly as the source's else-branch plus
`entriesByType["other"]++` do. -/
def bumpEntryType (e : EntriesByType) (t : String) : EntriesByType :=
  if t = "log" then { e with log := e.log + 1 }
  else if t = "info" then { e with info := e.info + 1 }
  else if t = "warning" then { e with warning := e.warning + 1 }
  else if t = "error" then { e with error := e.error + 1 }
  else if t = "debug" then { e with debug := e.debug + 1 }
  else { e with other := e.other + 1 }

/-- The full single-pass count (`tabLogs.logs.forEach(...)`). -/
def countEntriesByType (logs : List LogRecord) : EntriesByType :=
  logs.foldl (fun e r => bumpEntryType e r.type) ⟨0, 0, 0, 0, 0, 0⟩

/-- Whether a type string is one of the five specifically-keyed types; a
record counts toward `other` exactly when this is false, or when its type
is the literal "other". -/
def isSpecificType (t : String) : Bool :=
  t = "log" || t = "info" || t = "warning" || t = "error" || t = "debug"

theorem bumpEntryType_log (e : EntriesByType) (t : String) :
    (bumpEntryType e t).log = e.log + (if t = "log" then 1 else 0) := by
  unfold bumpEntryType
  split_ifs with h1 h2 h3 h4 h5 <;> simp_all

theorem bumpEntryType_info (e : EntriesByType) (t : String) :
    (bumpEntryType e t).info = e.info + (if t = "info" then 1 else 0) := by
  unfold bumpEntryType
  split_ifs with h1 h2 h3 h4 h5 <;> simp_all

theorem bumpEntryType_warning (e : EntriesByType) (t : String) :
    (bumpEntryType e t).warning = e.warning + (if t = "warning" then 1 else 0) := by
  unfold bumpEntryType
  split_ifs with h1 h2 h3 h4 h5 <;> simp_all

theorem bumpEntryType_error (e : EntriesByType) (t : String) :
    (bumpEntryType e t).error = e.error + (if t = "error" then 1 else 0) := by
  unfold bumpEntryType
  split_ifs with h1 h2 h3 h4 h5 <;> simp_all

theorem bumpEntryType_debug (e : EntriesByType) (t : String) :
    (bumpEntryType e t).debug = e.debug + (if t = "debug" then 1 else 0) := by
  unfold bumpEntryType
  split_ifs with h1 h2 h3 h4 h5 <;> simp_all

theorem bumpEntryType_other (e : EntriesByType) (t : String) :
    (bumpEntryType e t).other = e.other + (if isSpecificType t then 0 else 1) := by
  unfold bumpEntryType isSpecificType
  split_ifs with h1 h2 h3 h4 h5 <;> simp_all

theorem countEntriesByType_from (logs : List LogRecord) :
    ∀ (e : EntriesByType),
      logs.foldl (fun a r => bumpEntryType a r.type) e =
        ⟨e.log + logs.countP (fun r => r.type = "log"),
         e.info + logs.countP (fun r => r.type = "info"),
         e.warning + logs.countP (fun r => r.type = "warning"),
         e.error + logs.countP (fun r => r.type = "error"),
         e.debug + logs.countP (fun r => r.type = "debug"),
         e.other + logs.countP (fun r => !isSpecificType r.type)⟩ := by
  induction logs with
  | nil =>
    intro e
    cases e
    simp
  | cons r rest ih =>
    intro e
    rw [List.foldl_cons, ih (bumpEntryType e r.type)]
    simp only [List.countP_cons, EntriesByType.mk.injEq, bumpEntryType_log,
      bumpEntryType_info, bumpEntryType_warning, bumpEntryType_error,
      bumpEntryType_debug, bumpEntryType_other, decide_eq_true_eq]
    refine ⟨?_, ?_, ?_, ?_, ?_, ?_⟩ <;> try omega
    cases hs : isSpecificType r.type
    · simp [hs]
      omega
    · simp [hs]

/-- C9 — Every console flush/save document carries a by-type breakdown over
exactly the six keys: each specifically known type is counted under its own
key and everything else (including the literal type "other") under the key
`other`; in particular 3 records of type "error" and 2 of type "warning"
count as log 0, info 0, warning 2, error 3, debug 0, other 0. -/
theorem console_count_by_type (logs : List LogRecord) :
    countEntriesByType logs =
      ⟨logs.countP (fun r => r.type = "log"),
       logs.countP (fun r => r.type = "info"),
       logs.countP (fun r => r.type = "warning"),
       logs.countP (fun r => r.type = "error"),
       logs.countP (fun r => r.type = "debug"),
       logs.countP (fun r => !isSpecificType r.type)⟩ ∧
    countEntriesByType
        (List.replicate 3 ⟨"error", "e"⟩ ++ List.replicate 2 ⟨"warning", "w"⟩) =
      ⟨0, 0, 2, 3, 0, 0⟩ := by
  constructor
  · rw [countEntriesByType, countEntriesByType_from logs ⟨0, 0, 0, 0, 0, 0⟩]
    simp
  · decide

/-- The record `consoleLogs[tabId]` (created at lines 1763-1768 /
2090-2096): page metadata, the pending `logs` array, the activity
timestamp, and the list of flush files recorded for this tab (line 1672).
Flush file paths are identified here by the sequence component of the
generated filename. -/
structure TabConsoleState where
  pageTitle : String
  pageUrl : String
  lastActivity : Nat
  logs : List LogRecord
  flushFiles : List Nat
deriving DecidableEq

/-- The claim-relevant slice of `flushStats` for one tab's console path:
`flushStats.totalConsoleLogsFlushed[tabId]` (the cumulative number of logs
flushed for the tab, which also seeds the flush filename sequence, lines
1611 and 1653-1654) and the global `flushStats.consoleLogFlushes`
counter. -/
structure ConsoleFlushStats where
  totalConsoleLogsFlushed : Nat
  consoleLogFlushes : Nat
deriving DecidableEq

/-- The structured log document written by `flushConsoleLogsForTab` (lines
1638-1647). -/
structure ConsoleDoc where
  pageTitle : String
  pageUrl : String
  flushSequence : Nat
  totalEntries : Nat
  entriesByType : EntriesByType
  entries : List LogRecord
deriving DecidableEq

/-- `flushConsoleLogsForTab` (lines 1584-1684) for a tab present in
`consoleLogs` with `sessionDir` set.  Under threshold and not forced it
returns without doing anything (lines 1593-1598).  Otherwise it builds the
document and writes it with `fs.writeFileSync`; the write outcome is the
`writeOk` parameter.  On success the per-tab flushed-log total grows by the
number of logs written, the global console-flush counter advances, the
tab's `logs` array is reset to empty (line 1666) and the flush file is
appended to `flushFiles` (line 1672) — `pageTitle`, `pageUrl` and
`lastActivity` are not touched.  A throwing write lands in the `catch`
(lines 1676-1683) which only logs, leaving every piece of state
unchanged. -/
def flushConsoleLogsForTab (forceSave writeOk : Bool) (s : TabConsoleState)
    (fstats : ConsoleFlushStats) :
    TabConsoleState × ConsoleFlushStats × Option ConsoleDoc :=
  if s.logs.length < maxLogsPerTabBeforeFlush ∧ forceSave = false then (s, fstats, none)
  else
    let tabFlushCount := fstats.totalConsoleLogsFlushed
    let doc : ConsoleDoc :=
      { pageTitle := s.pageTitle
        pageUrl := s.pageUrl
        flushSequence := tabFlushCount + 1
        totalEntries := s.logs.length
        entriesByType := countEntriesByType s.logs
        entries := s.logs }
    if writeOk then
      ({ s with logs := [], flushFiles := s.flushFiles ++ [tabFlushCount + 1] },
       { totalConsoleLogsFlushed := tabFlushCount + s.logs.length,
         consoleLogFlushes := fstats.consoleLogFlushes + 1 },
       some doc)
    else (s, fstats, none)

/-- C5 amended — a forced flush of an empty buffer is not a no-op.  On the
network side it writes a flush document with an empty payload and consumes
a sequence number (the per-tab flush count advances by one); on the console
side it writes a document with zero total entries (the console filename
sequence, being the cumulative flushed-log count, is unchanged by an empty
flush, but a file is still produced and the global flush counter still
advances). -/
theorem forced_empty_flush_writes (c : Nat) (title url : String) (act : Nat)
    (files : List Nat) (fstats : ConsoleFlushStats) :
    flushNetworkEventsForTab true true (⟨.plainArr [], c⟩ : TabNetFlushState Nat) =
      (⟨.plainArr [], c + 1⟩, some []) ∧
    flushConsoleLogsForTab true true ⟨title, url, act, [], files⟩ fstats =
      (⟨title, url, act, [], files ++ [fstats.totalConsoleLogsFlushed + 1]⟩,
       ⟨fstats.totalConsoleLogsFlushed, fstats.consoleLogFlushes + 1⟩,
       some ⟨title, url, fstats.totalConsoleLogsFlushed + 1, 0, ⟨0, 0, 0, 0, 0, 0⟩, []⟩) := by
  constructor
  · rfl
  · rfl

/-- C10 — On every successful console flush for a tab (one that is not
skipped by the threshold guard and whose write succeeds), only the `logs`
field of the tab's record is reset to empty and the new flush file is
appended to `flushFiles`; the record's `pageTitle`, `pageUrl` and
`lastActivity` fields are unchanged. -/
theorem console_flush_frame (forceSave : Bool) (s : TabConsoleState)
    (fstats : ConsoleFlushStats)
    (hattempt : ¬(s.logs.length < maxLogsPerTabBeforeFlush ∧ forceSave = false)) :
    (flushConsoleLogsForTab forceSave true s fstats).1 =
      { s with logs := [],
               flushFiles := s.flushFiles ++ [fstats.totalConsoleLogsFlushed + 1] } := by
  unfold flushConsoleLogsForTab
  rw [if_neg hattempt]
  rfl

/-- Witness for `console_flush_frame`: a forced flush of a tab with one
pending log keeps title, url and activity and resets only the log list. -/
theorem console_flush_frame_witness :
    (flushConsoleLogsForTab true true ⟨"t", "u", 7, [⟨"error", "x"⟩], [1]⟩ ⟨4, 1⟩).1 =
      ⟨"t", "u", 7, [], [1, 5]⟩ := by
  have h := console_flush_frame true ⟨"t", "u", 7, [⟨"error", "x"⟩], [1]⟩ ⟨4, 1⟩ (by decide)
  exact h.trans (by decide)

/-- C9 main theorem — whenever `flushConsoleLogsForTab` writes a document,
the document's by-type breakdown counts each specifically known type under
its own key and everything unrecognized under `other`, and its total is
the number of entries; in particular flushing 3 records of type "error"
and 2 of type "warning" yields exactly log 0, info 0, warning 2, error 3,
debug 0, other 0. -/
theorem console_flush_doc_breakdown (forceSave writeOk : Bool) (s : TabConsoleState)
    (fstats : ConsoleFlushStats) (doc : ConsoleDoc)
    (hdoc : (flushConsoleLogsForTab forceSave writeOk s fstats).2.2 = some doc) :
    doc.entriesByType =
      ⟨s.logs.countP (fun r => r.type = "log"),
       s.logs.countP (fun r => r.type = "info"),
       s.logs.countP (fun r => r.type = "warning"),
       s.logs.countP (fun r => r.type = "error"),
       s.logs.countP (fun r => r.type = "debug"),
       s.logs.countP (fun r => !isSpecificType r.type)⟩ ∧
    doc.totalEntries = s.logs.length ∧
    (s.logs = List.replicate 3 ⟨"error", "e"⟩ ++ List.replicate 2 ⟨"warning", "w"⟩ →
      doc.entriesByType = ⟨0, 0, 2, 3, 0, 0⟩) := by
  unfold flushConsoleLogsForTab at hdoc
  split at hdoc
  · exact absurd hdoc (by simp)
  · split at hdoc
    · have hinj := Option.some.injEq _ _ ▸ hdoc
      have hd : doc = _ := (Option.some.inj hdoc).symm
      subst hd
      refine ⟨(console_count_by_type s.logs).1, rfl, ?_⟩
      intro hlogs
      simp only
      rw [hlogs]
      exact (console_count_by_type s.logs).2
    · exact absurd hdoc (by simp)

/-- Witness for `console_flush_doc_breakdown`: the concrete 3-error,
2-warning forced flush. -/
theorem console_flush_doc_breakdown_witness :
    ((flushConsoleLogsForTab true true
        ⟨"t", "u", 0, List.replicate 3 ⟨"error", "e"⟩ ++ List.replicate 2 ⟨"warning", "w"⟩, []⟩
        ⟨0, 0⟩).2.2.map ConsoleDoc.entriesByType) = some ⟨0, 0, 2, 3, 0, 0⟩ := by
  have h := console_flush_doc_breakdown true true
      ⟨"t", "u", 0, List.replicate 3 ⟨"error", "e"⟩ ++ List.replicate 2 ⟨"warning", "w"⟩, []⟩
      ⟨0, 0⟩
      ⟨"t", "u", 1, 5, ⟨0, 0, 2, 3, 0, 0⟩, List.replicate 3 ⟨"error", "e"⟩ ++ List.replicate 2 ⟨"warning", "w"⟩⟩
      (by decide)
  rw [show (flushConsoleLogsForTab true true
        ⟨"t", "u", 0, List.replicate 3 ⟨"error", "e"⟩ ++ List.replicate 2 ⟨"warning", "w"⟩, []⟩
        ⟨0, 0⟩).2.2
      = some ⟨"t", "u", 1, 5, ⟨0, 0, 2, 3, 0, 0⟩,
          List.replicate 3 ⟨"error", "e"⟩ ++ List.replicate 2 ⟨"warning", "w"⟩⟩ from by decide]
  exact congrArg some (h.2.2 rfl)

/-- Outcomes of the primitive persistence operations that
`writeCompressedFile` (lines 1338-1392) can attempt for one call:
`gzipStreamOk` — the gzip pipe into `fs.createWriteStream(filePath + ".gz")`
emits `finish` rather than `error`; `syncOk` — `fs.writeFileSync(filePath,
...)` returns rather than throws; `backupOk` — `fs.writeFileSync(filePath +
".backup", ...)` returns rather than throws; `setupThrows` — the
synchronous part of the `try` block (loading zlib, creating the streams,
`JSON.stringify`) throws before any write is attempted. -/
structure WriteOracle where
  setupThrows : Bool
  gzipStreamOk : Bool
  syncOk : Bool
  backupOk : Bool
deriving DecidableEq

/-- A persistence strategy actually attempted by one `writeCompressedFile`
call, in attempt order. -/
inductive WriteAttempt where
  | gzipStream
  | syncWrite
  | backupWrite
deriving DecidableEq

/-- Whether an attempted strategy failed under the given oracle. -/
def writeAttemptFailed (o : WriteOracle) : WriteAttempt → Bool
  | .gzipStream => !o.gzipStreamOk
  | .syncWrite => !o.syncOk
  | .backupWrite => !o.backupOk

/-- `MEMORY_CONFIG.useCompression` (line 259). -/
def useCompression : Bool := true

/-- `writeCompressedFile` (lines 1338-1392).  The compressed streaming
branch is taken when `MEMORY_CONFIG.useCompression` is set, the data is an
object and it has more than 10 keys (lines 1342-1346).  In that branch a
stream `error` falls back to one uncompressed `fs.writeFileSync` of the
original path (lines 1353-1365) and rejects if that also throws — the
`.backup` write is unreachable from there, because the outer `catch`
(lines 1378-1390) only sees synchronous throws.  When the `try` block
throws synchronously, the `catch` performs the single `.backup` write and
rejects if it throws.  In the uncompressed branch the primary
`fs.writeFileSync` throw likewise lands in the `catch` and its `.backup`
write.  The result carries the resolved path (or the rejection) together
with the ordered list of write strategies that were actually attempted. -/
def writeCompressedFile (useComp dataIsObject : Bool) (dataKeyCount : Nat)
    (filePath : String) (o : WriteOracle) :
    Except String String × List WriteAttempt :=
  if useComp = true ∧ dataIsObject = true ∧ 10 < dataKeyCount then
    if o.setupThrows then
      if o.backupOk then (.ok (filePath ++ ".backup"), [.backupWrite])
      else (.error "backup-failed", [.backupWrite])
    else
      if o.gzipStreamOk then (.ok (filePath ++ ".gz"), [.gzipStream])
      else if o.syncOk then (.ok filePath, [.gzipStream, .syncWrite])
      else (.error "stream-and-fallback-failed", [.gzipStream, .syncWrite])
  else
    if o.syncOk then (.ok filePath, [.syncWrite])
    else if o.backupOk then (.ok (filePath ++ ".backup"), [.syncWrite, .backupWrite])
    else (.error "sync-and-backup-failed", [.syncWrite, .backupWrite])

/-- C4 counterexample — with compression in use (the shipped default) and a
large document, a stream error followed by a failing synchronous fallback
makes `writeCompressedFile` report an error to the caller even though the
third strategy, the `.backup` raw write, was never attempted and would
have succeeded: the claim that an error is reported only when all three
strategies fail is false. -/
theorem write_error_without_backup_attempt :
    ((writeCompressedFile useCompression true 11 "f"
        ⟨false, false, false, true⟩).1.isOk = false) ∧
    (WriteAttempt.backupWrite ∉
      (writeCompressedFile useCompression true 11 "f" ⟨false, false, false, true⟩).2) ∧
    (WriteOracle.backupOk ⟨false, false, false, true⟩ = true) := by
  refine ⟨rfl, ?_, rfl⟩
  decide

/-- C4 amended — `writeCompressedFile` attempts at most two persistence
strategies per call, never three: the primary write (gzip stream in the
compressed branch, synchronous write otherwise) followed by a single
fallback (an uncompressed synchronous write after a stream error; the
`.backup` raw write after a synchronous throw), and it reports an error to
the caller exactly when every strategy it attempted failed. -/
theorem write_fallback_chain (useComp dataIsObject : Bool) (dataKeyCount : Nat)
    (filePath : String) (o : WriteOracle) :
    (((writeCompressedFile useComp dataIsObject dataKeyCount filePath o).1.isOk = false) ↔
      ((writeCompressedFile useComp dataIsObject dataKeyCount filePath o).2.all
        (writeAttemptFailed o) = true)) ∧
    (writeCompressedFile useComp dataIsObject dataKeyCount filePath o).2 ≠ [] ∧
    (writeCompressedFile useComp dataIsObject dataKeyCount filePath o).2.length ≤ 2 := by
  obtain ⟨st, gz, sy, bk⟩ := o
  unfold writeCompressedFile
  split
  · cases st <;> cases gz <;> cases sy <;> cases bk <;>
      simp [writeAttemptFailed, Except.isOk, Except.toBool]
  · cases sy <;> cases bk <;>
      simp [writeAttemptFailed, Except.isOk, Except.toBool]

/-- The partial-save sample budget: `const sampleSize = 1000` (line 2468 of
the auto-save interval). -/
def sampleSize : Nat := 1000

/-- One tab's share of the partial-file sample (lines 2474-2479):
`Math.min(tabEvents.length, Math.floor(sampleSize * (tabEvents.length /
progressStats.networkEvents)))`, the real-valued product-and-floor rendered
as Nat floor division.  `totalNetworkEvents` is
`progressStats.networkEvents` — the session-total count of ingested
network events (incremented per request at line 1907 and never decreased
by flushes or eviction), not the currently buffered union. -/
def tabSampleShare (tabLen totalNetworkEvents : Nat) : Nat :=
  min tabLen (sampleSize * tabLen / totalNetworkEvents)

/-- The `allEventsSample` accumulation loop of the auto-save interval
(lines 2469-2487), over tabs whose buffers may be in either shape.  A
non-empty tab with a positive share contributes its `tabSampleShare` most
recent events in order (`tabEvents.slice(startIndex)` with `startIndex =
max 0 (length - share)`) — but only a plain array has a `slice` method: a
tab still in its `BoundedArray` shape (before its first successful flush)
makes line 2484 throw a `TypeError`, which the `setInterval` callback's
`catch` (line 2544) absorbs, aborting the whole tick so that no sample (and
no partial file) is produced; the abort is rendered as `none`. -/
def collectLoop (total : Nat) : List (NetBuffer α) → List α → Option (List α)
  | [], acc => some acc
  | tab :: rest, acc =>
    if 0 < tab.length then
      if 0 < tabSampleShare tab.length total then
        match tab with
        | .plainArr l => collectLoop total rest (acc ++ lastN (tabSampleShare l.length total) l)
        | .boundedBuf _ => none
      else collectLoop total rest acc
    else collectLoop total rest acc

/-- The full sampling step of the auto-save interval: run the accumulation
loop and, if it completed, cap the concatenation to its last `sampleSize`
entries (`allEventsSample.slice(-sampleSize)`, lines 2490-2492). -/
def collectEventsSample (tabs : List (NetBuffer α)) (totalNetworkEvents : Nat) :
    Option (List α) :=
  (collectLoop totalNetworkEvents tabs []).map
    (fun sample => if sampleSize < sample.length then lastN sampleSize sample else sample)

/-- The sampling rule in the specification's own words: each source
contributes `min(sourceCount, floor(sampleBudget * sourceCount /
totalCount))` of its most recent entries, where `totalCount` is the union
of all sources' currently buffered entries.  Stated for comparison with
`tabSampleShare`, whose denominator is the session-total ingested count
instead. -/
def specSampleShare (sampleBudget sourceCount totalCount : Nat) : Nat :=
  min sourceCount (sampleBudget * sourceCount / totalCount)

/-- C7 counterexample — one tab with 4 buffered entries in the plain-array
shape, in a session that has ingested 2000 events in total (the rest
flushed earlier).  The claimed rule (budget times buffered share of the
buffered union) would keep all 4 entries, since the buffered union is 4;
the code divides by the session-total ingested count and keeps only the 2
most recent.  The claim's concrete scenario is doubly unreachable: the
code's budget is the hard-coded 1000, not 2000. -/
theorem sampling_share_counterexample :
    collectEventsSample [NetBuffer.plainArr [1, 2, 3, 4]] 2000 = some [3, 4] ∧
    specSampleShare sampleSize 4 4 = 4 ∧
    ([3, 4] : List Nat).length ≠ 4 := by
  refine ⟨by decide, by decide, by decide⟩

theorem nat_div_add_div_le (a b c : Nat) : a / c + b / c ≤ (a + b) / c := by
  rcases Nat.eq_zero_or_pos c with h | h
  · subst h
    simp
  · rw [Nat.le_div_iff_mul_le h, Nat.add_mul]
    exact Nat.add_le_add (Nat.div_mul_le_self _ c) (Nat.div_mul_le_self _ c)

theorem sum_tabSampleShare_le (total : Nat) (tabs : List (List α)) :
    ((tabs.map (fun ev => tabSampleShare ev.length total)).sum) ≤
      sampleSize * (tabs.map List.length).sum / total := by
  induction tabs with
  | nil => simp
  | cons ev rest ih =>
    simp only [List.map_cons, List.sum_cons]
    calc tabSampleShare ev.length total +
          (rest.map (fun ev => tabSampleShare ev.length total)).sum
        ≤ sampleSize * ev.length / total +
          sampleSize * (rest.map List.length).sum / total :=
          Nat.add_le_add (Nat.min_le_right _ _) ih
      _ ≤ (sampleSize * ev.length + sampleSize * (rest.map List.length).sum) / total :=
          nat_div_add_div_le _ _ _
      _ = sampleSize * (ev.length + (rest.map List.length).sum) / total := by
          rw [Nat.mul_add]

theorem sum_tabSampleShare_le_budget (total : Nat) (tabs : List (List α))
    (hbuf : (tabs.map List.length).sum ≤ total) :
    ((tabs.map (fun ev => tabSampleShare ev.length total)).sum) ≤ sampleSize := by
  refine le_trans (sum_tabSampleShare_le total tabs) ?_
  rcases Nat.eq_zero_or_pos total with h | h
  · subst h
    simp
  · calc sampleSize * (tabs.map List.length).sum / total
        ≤ sampleSize * total / total :=
          Nat.div_le_div_right (Nat.mul_le_mul_left _ hbuf)
      _ = sampleSize := Nat.mul_div_cancel _ h

theorem collectLoop_plains (total : Nat) (plains : List (List α)) :
    ∀ acc : List α,
      collectLoop total (plains.map NetBuffer.plainArr) acc =
        some (acc ++ (plains.map (fun ev => lastN (tabSampleShare ev.length total) ev)).flatten) := by
  induction plains with
  | nil =>
    intro acc
    simp [collectLoop]
  | cons ev rest ih =>
    intro acc
    simp only [List.map_cons, List.flatten_cons, collectLoop, NetBuffer.length]
    by_cases h1 : 0 < ev.length
    · rw [if_pos h1]
      by_cases h2 : 0 < tabSampleShare ev.length total
      · rw [if_pos h2]
        rw [ih (acc ++ lastN (tabSampleShare ev.length total) ev), List.append_assoc]
      · rw [if_neg h2]
        have hz : tabSampleShare ev.length total = 0 := by omega
        rw [ih acc, hz]
        simp [lastN]
    · rw [if_neg h1]
      have hz : ev = [] := List.length_eq_zero.mp (by omega)
      subst hz
      rw [ih acc]
      simp [lastN]

theorem collectLoop_bounded_aborts (total : Nat) (b : BoundedArray α)
    (hlen : 0 < b.array.length) (hshare : 0 < tabSampleShare b.array.length total) :
    ∀ (tabs : List (NetBuffer α)), NetBuffer.boundedBuf b ∈ tabs →
      ∀ acc, collectLoop total tabs acc = none := by
  intro tabs
  induction tabs with
  | nil =>
    intro hmem
    exact absurd hmem (List.not_mem_nil _)
  | cons tab rest ih =>
    intro hmem acc
    rcases List.mem_cons.mp hmem with heq | hmem2
    · subst heq
      simp only [collectLoop, NetBuffer.length]
      rw [if_pos hlen, if_pos hshare]
    · simp only [collectLoop]
      by_cases h1 : 0 < tab.length
      · rw [if_pos h1]
        by_cases h2 : 0 < tabSampleShare tab.length total
        · rw [if_pos h2]
          cases tab with
          | boundedBuf b2 => rfl
          | plainArr l => exact ih hmem2 _
        · rw [if_neg h2]
          exact ih hmem2 acc
      · rw [if_neg h1]
        exact ih hmem2 acc

/-- C7 amended — whenever every tab's buffer is in the plain-array shape
(each tab past its first successful flush) and the buffered union is no
larger than the session-total ingested count (a pipeline invariant, since
every buffered event was ingested), the partial-save sample is exactly the
concatenation, in tab order, of each tab's `min(len, floor(1000 * len /
totalIngested))` most recent entries in their original order — the budget
is the hard-coded 1000, the denominator the session-total ingested count,
and the final `slice(-1000)` cap never truncates.  A tab whose buffer is
still a `BoundedArray` and whose computed share is positive makes the loop
throw, so the tick aborts and no sample at all is produced. -/
theorem sampling_joins_most_recent_shares (plains : List (List α)) (total : Nat)
    (hbuf : (plains.map List.length).sum ≤ total) :
    collectEventsSample (plains.map NetBuffer.plainArr) total =
      some ((plains.map (fun ev => lastN (tabSampleShare ev.length total) ev)).flatten) ∧
    ((plains.map (fun ev => lastN (tabSampleShare ev.length total) ev)).flatten).length
      ≤ sampleSize ∧
    (∀ (tabs : List (NetBuffer α)) (b : BoundedArray α),
      NetBuffer.boundedBuf b ∈ tabs → 0 < b.array.length →
      0 < tabSampleShare b.array.length total →
      collectEventsSample tabs total = none) := by
  have hlenmap : (plains.map (fun ev => lastN (tabSampleShare ev.length total) ev)).map
      List.length = plains.map (fun ev => tabSampleShare ev.length total) := by
    rw [List.map_map]
    refine List.map_congr_left ?_
    intro ev _
    simp only [Function.comp_apply, lastN_length]
    have : tabSampleShare ev.length total ≤ ev.length := Nat.min_le_left _ _
    omega
  have hjlen : ((plains.map
      (fun ev => lastN (tabSampleShare ev.length total) ev)).flatten).length
      ≤ sampleSize := by
    rw [List.length_flatten, hlenmap]
    exact sum_tabSampleShare_le_budget total plains hbuf
  refine ⟨?_, hjlen, ?_⟩
  · unfold collectEventsSample
    rw [collectLoop_plains total plains []]
    simp only [Option.map_some', List.nil_append]
    rw [if_neg (by omega)]
  · intro tabs b hmem hblen hbshare
    unfold collectEventsSample
    rw [collectLoop_bounded_aborts total b hblen hbshare tabs hmem []]
    rfl

/-- Witness for `sampling_joins_most_recent_shares`: two plain-shape tabs
with 2 and 3 buffered entries in a session of 2000 ingested events
contribute their 1 most recent entry each, while a bounded-shape tab with
one entry in a session of 1 ingested event aborts the sample. -/
theorem sampling_joins_most_recent_shares_witness :
    collectEventsSample [NetBuffer.plainArr [1, 2], NetBuffer.plainArr [3, 4, 5]] 2000 =
      some [2, 5] ∧
    collectEventsSample [NetBuffer.boundedBuf (BoundedArray.mk 6000 [9] true)] 1 = none := by
  have h := sampling_joins_most_recent_shares ([[1, 2], [3, 4, 5]] : List (List Nat)) 2000
    (by decide)
  have h2 := sampling_joins_most_recent_shares ([] : List (List Nat)) 1 (by decide)
  refine ⟨h.1.trans (by decide), ?_⟩
  exact h2.2.2 [NetBuffer.boundedBuf (BoundedArray.mk 6000 [9] true)]
    (BoundedArray.mk 6000 [9] true) (by simp) (by decide) (by decide)

/-- The response object stored into a network entry on a match (lines
1983-2001), restricted to its informative fields. -/
structure RespData where
  status : Nat
  statusText : String
  headers : List (String × String)
deriving DecidableEq

/-- One buffered network entry, restricted to the fields the response
handler inspects or mutates: the synthetic `_requestId` assigned by the
request handler (line 1852), the request `url`, the total `time`, the
`response` object, and `serverIPAddress`.  The float timing estimates
`wait`/`receive` (lines 1969-1973) are elided; no claim mentions them. -/
structure NetEntry where
  requestId : Nat
  url : String
  time : Nat
  response : RespData
  serverIPAddress : String
deriving DecidableEq

/-- A response event at the ingest boundary (line 1934): the responded
request's url, the status data, and the optional remote address. -/
structure RespEvent where
  url : String
  status : Nat
  statusText : String
  headers : List (String × String)
  remoteIp : Option String
deriving DecidableEq

/-- `progressStats` (lines 265-271): the pipeline's session counters. -/
structure ProgressStats where
  networkEvents : Nat
  consoleLogs : Nat
  errorLogs : Nat
  warningLogs : Nat
deriving DecidableEq

/-- One tab's state as the response handler sees it: the buffered entries
of `networkEvents.get(pageId)`, the pending-match index
`requestUrlMaps.get(pageId)` - a url-keyed `Map` rendered as a unique-key
association list whose values are the stored entry references, represented
by the referenced entry's `_requestId` - and the session counters. -/
structure TabNetState where
  events : List NetEntry
  urlMap : List (String × Nat)
  stats : ProgressStats
deriving DecidableEq

/-- `urlMap.get(url)` (line 1958). -/
def lookupUrl (m : List (String × Nat)) (u : String) : Option Nat :=
  (m.find? (fun p => p.1 == u)).map Prod.snd

/-- The in-place mutation of the matched entry (lines 1960-2011): `time`
is set from the elapsed duration, `response` is replaced by an object
built from the event, and `serverIPAddress` is set when a remote address
is available. -/
def applyResponse (e : NetEntry) (r : RespEvent) (dur : Nat) : NetEntry :=
  { e with
    time := dur
    response := { status := r.status, statusText := r.statusText, headers := r.headers }
    serverIPAddress :=
      match r.remoteIp with
      | some ip => ip
      | none => e.serverIPAddress }

/-- The `page.on("response")` handler (lines 1934-2019) for a tab present
in `networkEvents`: the url is looked up in the pending index; with no
match the `if (entry)` body is skipped and the handler has no other effect
- in particular no counter anywhere is touched; with a match the
referenced entry is mutated through its stored reference (rendered as
updating the entry carrying the referenced `_requestId`) and the url is
deleted from the pending index (`urlMap.delete(url)`, line 2014; deletion
from a unique-key map is rendered as a filter). -/
def processResponse (s : TabNetState) (r : RespEvent) (dur : Nat) : TabNetState :=
  match lookupUrl s.urlMap r.url with
  | none => s
  | some rid =>
    { s with
      events := s.events.map (fun e => if e.requestId = rid then applyResponse e r dur else e)
      urlMap := s.urlMap.filter (fun p => !(p.1 == r.url)) }

theorem lookupUrl_filter_self (m : List (String × Nat)) (u : String) :
    lookupUrl (m.filter (fun p => !(p.1 == u))) u = none := by
  have hf : List.find? (fun p => p.1 == u) (m.filter (fun p => !(p.1 == u))) = none := by
    rw [List.find?_eq_none]
    intro x hx
    have hq := List.of_mem_filter hx
    simp only [Bool.not_eq_true'] at hq
    simp [hq]
  unfold lookupUrl
  rw [hf]
  rfl

theorem processResponse_none {s : TabNetState} {r : RespEvent} {dur : Nat}
    (h : lookupUrl s.urlMap r.url = none) : processResponse s r dur = s := by
  unfold processResponse
  rw [h]

theorem processResponse_some {s : TabNetState} {r : RespEvent} {dur : Nat} {rid : Nat}
    (h : lookupUrl s.urlMap r.url = some rid) :
    processResponse s r dur =
      { s with
        events := s.events.map
          (fun e => if e.requestId = rid then applyResponse e r dur else e),
        urlMap := s.urlMap.filter (fun p => !(p.1 == r.url)) } := by
  unfold processResponse
  rw [h]

/-- C8 counterexample — a response whose `(sourceId, url)` has no pending
request entry leaves the tab state bit-for-bit unchanged: no crash, no
orphan entry, and also no stats counter of any kind is incremented, so the
unmatched response is not "counted separately in stats" as claimed — the
handler keeps no unmatched-response counter at all. -/
theorem unmatched_response_changes_nothing :
    processResponse
        ⟨[⟨1, "a", 0, ⟨0, "", []⟩, ""⟩], [("a", 1)], ⟨5, 2, 1, 0⟩⟩
        ⟨"b", 200, "OK", [], none⟩ 7 =
      ⟨[⟨1, "a", 0, ⟨0, "", []⟩, ""⟩], [("a", 1)], ⟨5, 2, 1, 0⟩⟩ := by
  decide

/-- C8 amended — an unmatched response leaves the state (buffer, pending
index and stats) entirely unchanged: it is silently ignored without being
counted anywhere.  A matched response leaves the stats and the number of
buffered entries unchanged, keeps every entry with a different request id,
replaces the matched entry by its response-completed version, and removes
the pairing from the pending index, so a second response for the same url
finds no pending entry and changes nothing. -/
theorem response_handler_semantics (s : TabNetState) (r : RespEvent) (dur : Nat) :
    (lookupUrl s.urlMap r.url = none → processResponse s r dur = s) ∧
    (∀ rid, lookupUrl s.urlMap r.url = some rid →
      (processResponse s r dur).stats = s.stats ∧
      (processResponse s r dur).events.length = s.events.length ∧
      (∀ e ∈ s.events, e.requestId ≠ rid → e ∈ (processResponse s r dur).events) ∧
      (∀ e ∈ s.events, e.requestId = rid →
        applyResponse e r dur ∈ (processResponse s r dur).events) ∧
      lookupUrl (processResponse s r dur).urlMap r.url = none) ∧
    (∀ (r2 : RespEvent) (dur2 : Nat), r2.url = r.url →
      processResponse (processResponse s r dur) r2 dur2 = processResponse s r dur) := by
  refine ⟨fun hnone => processResponse_none hnone, ?_, ?_⟩
  · intro rid hsome
    rw [processResponse_some hsome]
    refine ⟨rfl, by simp, ?_, ?_, ?_⟩
    · intro e he hne
      simp only [List.mem_map]
      exact ⟨e, he, by rw [if_neg hne]⟩
    · intro e he heq
      simp only [List.mem_map]
      exact ⟨e, he, by rw [if_pos heq]⟩
    · exact lookupUrl_filter_self s.urlMap r.url
  · intro r2 dur2 hurl
    rcases hcase : lookupUrl s.urlMap r.url with _ | rid
    · have hcase2 : lookupUrl s.urlMap r2.url = none := by
        rw [hurl]
        exact hcase
      rw [processResponse_none hcase, processResponse_none hcase2]
    · have hgone : lookupUrl (processResponse s r dur).urlMap r2.url = none := by
        rw [hurl, processResponse_some hcase]
        exact lookupUrl_filter_self s.urlMap r.url
      exact processResponse_none hgone

/-- Witness for `response_handler_semantics`: a matched 200 response on a
one-entry tab. -/
theorem response_handler_semantics_witness :
    (processResponse
        ⟨[⟨1, "a", 0, ⟨0, "", []⟩, ""⟩], [("a", 1)], ⟨1, 0, 0, 0⟩⟩
        ⟨"a", 200, "OK", [], some "1.2.3.4"⟩ 7).stats = ⟨1, 0, 0, 0⟩ ∧
    lookupUrl (processResponse
        ⟨[⟨1, "a", 0, ⟨0, "", []⟩, ""⟩], [("a", 1)], ⟨1, 0, 0, 0⟩⟩
        ⟨"a", 200, "OK", [], some "1.2.3.4"⟩ 7).urlMap "a" = none := by
  have h := response_handler_semantics
    ⟨[⟨1, "a", 0, ⟨0, "", []⟩, ""⟩], [("a", 1)], ⟨1, 0, 0, 0⟩⟩
    ⟨"a", 200, "OK", [], some "1.2.3.4"⟩ 7
  have h2 := h.2.1 1 (by decide)
  exact ⟨h2.1, h2.2.2.2.2⟩

end ChromeLogs
